import Mathlib

/-
Verification of the response-acquisition and normalization layer of the
NewsGrader client (src/streamlit_app.py): the robust JSON normalizer
`clean_and_parse_json`, the manual SSE chunk loop, the result display
defaulting, the input validation, and the (spec-described) poll consumer.

Strings are modelled as `List Char`.  Python `json.loads` is modelled by
`jsonLoads`, a recursive-descent parser over the integer fragment of JSON
(floating-point literals are outside the modelled fragment and parse to
`none`); Python values flowing through the helper are modelled by `PyVal`
and Python `repr`/`str` by `pyRepr`.
-/

set_option maxRecDepth 10000

/-- Backtick character, written via its code point. -/
def btick : Char := Char.ofNat 96

/-- Double-quote character. -/
def qc : Char := Char.ofNat 34

/-- Single-quote character. -/
def squo : Char := Char.ofNat 39

/-- Backslash character. -/
def bslash : Char := Char.ofNat 92

/-- Opening curly brace character. -/
def lbr : Char := Char.ofNat 123

/-- Closing curly brace character. -/
def rbr : Char := Char.ofNat 125

/-- JSON whitespace, exactly the four characters `json.loads` skips. -/
def jsonWsB (c : Char) : Bool :=
  c = ' ' || c = '\t' || c = '\n' || c = '\r'

/-- Python whitespace for `str.strip` and regex `\s` (ASCII range):
JSON whitespace plus vertical tab and form feed. -/
def pyWsB (c : Char) : Bool :=
  jsonWsB c || c = Char.ofNat 11 || c = Char.ofNat 12

/-- Strip leading Python whitespace. -/
def stripL (l : List Char) : List Char := l.dropWhile pyWsB

/-- Strip trailing Python whitespace. -/
def stripR (l : List Char) : List Char := (l.reverse.dropWhile pyWsB).reverse

/-- Python `str.strip()`. -/
def pyStrip (l : List Char) : List Char := stripR (stripL l)

/-- Does `l` start with pattern `p` (Python `str.startswith`)? -/
def startsWithL : List Char → List Char → Bool
  | [], _ => true
  | _ :: _, [] => false
  | p :: ps, c :: cs => if p = c then startsWithL ps cs else false

/-- Does `l` contain `pat` as a contiguous substring (Python `in` on str)? -/
def containsSub : List Char → List Char → Bool
  | pat, [] => startsWithL pat []
  | pat, c :: cs => startsWithL pat (c :: cs) || containsSub pat cs

/-- The JSON values produced by the modelled `json.loads` (integer fragment).
Object fields are kept in Python dict insertion order. -/
inductive Json where
  | null
  | bool (b : Bool)
  | num (n : Int)
  | str (s : List Char)
  | arr (items : List Json)
  | obj (fields : List (List Char × Json))

mutual

/-- Decidable equality on `Json` (the nested inductive prevents deriving). -/
def decEqJson : (a b : Json) → Decidable (a = b)
  | .null, .null => isTrue rfl
  | .bool a, .bool b =>
    if h : a = b then isTrue (by rw [h]) else isFalse (by simp [h])
  | .num a, .num b =>
    if h : a = b then isTrue (by rw [h]) else isFalse (by simp [h])
  | .str a, .str b =>
    if h : a = b then isTrue (by rw [h]) else isFalse (by simp [h])
  | .arr a, .arr b =>
    match decEqJsonList a b with
    | isTrue h => isTrue (by rw [h])
    | isFalse h => isFalse (by simp [h])
  | .obj a, .obj b =>
    match decEqJsonFields a b with
    | isTrue h => isTrue (by rw [h])
    | isFalse h => isFalse (by simp [h])
  | .null, .bool _ => isFalse (by simp)
  | .null, .num _ => isFalse (by simp)
  | .null, .str _ => isFalse (by simp)
  | .null, .arr _ => isFalse (by simp)
  | .null, .obj _ => isFalse (by simp)
  | .bool _, .null => isFalse (by simp)
  | .bool _, .num _ => isFalse (by simp)
  | .bool _, .str _ => isFalse (by simp)
  | .bool _, .arr _ => isFalse (by simp)
  | .bool _, .obj _ => isFalse (by simp)
  | .num _, .null => isFalse (by simp)
  | .num _, .bool _ => isFalse (by simp)
  | .num _, .str _ => isFalse (by simp)
  | .num _, .arr _ => isFalse (by simp)
  | .num _, .obj _ => isFalse (by simp)
  | .str _, .null => isFalse (by simp)
  | .str _, .bool _ => isFalse (by simp)
  | .str _, .num _ => isFalse (by simp)
  | .str _, .arr _ => isFalse (by simp)
  | .str _, .obj _ => isFalse (by simp)
  | .arr _, .null => isFalse (by simp)
  | .arr _, .bool _ => isFalse (by simp)
  | .arr _, .num _ => isFalse (by simp)
  | .arr _, .str _ => isFalse (by simp)
  | .arr _, .obj _ => isFalse (by simp)
  | .obj _, .null => isFalse (by simp)
  | .obj _, .bool _ => isFalse (by simp)
  | .obj _, .num _ => isFalse (by simp)
  | .obj _, .str _ => isFalse (by simp)
  | .obj _, .arr _ => isFalse (by simp)

/-- Decidable equality on lists of `Json`. -/
def decEqJsonList : (a b : List Json) → Decidable (a = b)
  | [], [] => isTrue rfl
  | [], _ :: _ => isFalse (by simp)
  | _ :: _, [] => isFalse (by simp)
  | x :: xs, y :: ys =>
    match decEqJson x y, decEqJsonList xs ys with
    | isTrue h1, isTrue h2 => isTrue (by rw [h1, h2])
    | isFalse h1, _ => isFalse (by simp [h1])
    | _, isFalse h2 => isFalse (by simp [h2])

/-- Decidable equality on `Json` object field lists. -/
def decEqJsonFields : (a b : List (List Char × Json)) → Decidable (a = b)
  | [], [] => isTrue rfl
  | [], _ :: _ => isFalse (by simp)
  | _ :: _, [] => isFalse (by simp)
  | (k1, v1) :: xs, (k2, v2) :: ys =>
    match decEq k1 k2, decEqJson v1 v2, decEqJsonFields xs ys with
    | isTrue h1, isTrue h2, isTrue h3 => isTrue (by rw [h1, h2, h3])
    | isFalse h1, _, _ => isFalse (by simp [h1])
    | _, isFalse h2, _ => isFalse (by simp [h2])
    | _, _, isFalse h3 => isFalse (by simp [h3])

end

instance : DecidableEq Json := decEqJson

/-- Skip JSON whitespace. -/
def skipWs (l : List Char) : List Char := l.dropWhile jsonWsB

/-- Value of a hex digit, if any. -/
def hexVal (c : Char) : Option Nat :=
  if '0' ≤ c ∧ c ≤ '9' then some (c.toNat - 48)
  else if 'a' ≤ c ∧ c ≤ 'f' then some (c.toNat - 87)
  else if 'A' ≤ c ∧ c ≤ 'F' then some (c.toNat - 55)
  else none

/-- Prepend a decoded character to a string-body parse result. -/
def consStr (ch : Char) : Option (List Char × List Char) → Option (List Char × List Char)
  | some (s, r) => some (ch :: s, r)
  | none => none

/-- Parse the body of a JSON string after the opening quote, returning the
decoded content and the input after the closing quote.  Mirrors the strict
`json.loads` string scanner: raw control characters are rejected, the
escapes are the eight simple ones plus `\uXXXX`. -/
def parseStringBody : List Char → Option (List Char × List Char)
  | [] => none
  | c :: cs =>
    if c = qc then some ([], cs)
    else if c = bslash then
      match cs with
      | [] => none
      | e :: cs2 =>
        if e = qc then consStr qc (parseStringBody cs2)
        else if e = bslash then consStr bslash (parseStringBody cs2)
        else if e = '/' then consStr '/' (parseStringBody cs2)
        else if e = 'b' then consStr (Char.ofNat 8) (parseStringBody cs2)
        else if e = 'f' then consStr (Char.ofNat 12) (parseStringBody cs2)
        else if e = 'n' then consStr '\n' (parseStringBody cs2)
        else if e = 'r' then consStr '\r' (parseStringBody cs2)
        else if e = 't' then consStr '\t' (parseStringBody cs2)
        else if e = 'u' then
          match cs2 with
          | h1 :: h2 :: h3 :: h4 :: cs3 =>
            match hexVal h1, hexVal h2, hexVal h3, hexVal h4 with
            | some a, some b, some c3, some d =>
              consStr (Char.ofNat (((a * 16 + b) * 16 + c3) * 16 + d)) (parseStringBody cs3)
            | _, _, _, _ => none
          | _ => none
        else none
    else if c.toNat < 32 then none
    else consStr c (parseStringBody cs)

/-- Span of leading decimal digits. -/
def digitSpan : List Char → List Char × List Char
  | [] => ([], [])
  | c :: cs =>
    if c.isDigit then
      let (d, r) := digitSpan cs
      (c :: d, r)
    else ([], c :: cs)

/-- Decimal digits to a natural number. -/
def digitsToNat (l : List Char) : Nat :=
  l.foldl (fun a c => a * 10 + (c.toNat - 48)) 0

/-- JSON integer-literal digit check: nonempty, no leading zero
except the literal `0` itself. -/
def intDigitsOk : List Char → Bool
  | [] => false
  | ['0'] => true
  | c :: _ => c ≠ '0'

/-- Would the next character extend a number into the (unmodelled)
floating-point fragment? -/
def floatFollows : List Char → Bool
  | [] => false
  | c :: _ => c = '.' || c = 'e' || c = 'E'

/-- Insert a key into an object's field list, Python-dict style:
the first occurrence keeps its position, the value is replaced;
a fresh key is appended. -/
def insertField : List (List Char × Json) → List Char → Json → List (List Char × Json)
  | [], k, v => [(k, v)]
  | (k0, v0) :: fs, k, v =>
    if k0 = k then (k0, v) :: fs else (k0, v0) :: insertField fs k v

mutual

/-- Parse one JSON value at the head of the input (no leading whitespace).
Returns the value and the unconsumed rest.  Fuel bounds the recursion. -/
def parseValue : Nat → List Char → Option (Json × List Char)
  | 0, _ => none
  | Nat.succ f, l =>
    match l with
    | [] => none
    | c :: cs =>
      if c = qc then
        match parseStringBody cs with
        | some (s, r) => some (.str s, r)
        | none => none
      else if c = lbr then
        match skipWs cs with
        | [] => none
        | d :: ds => if d = rbr then some (.obj [], ds) else parseMembers f (d :: ds) []
      else if c = '[' then
        match skipWs cs with
        | [] => none
        | d :: ds => if d = ']' then some (.arr [], ds) else parseItems f (d :: ds) []
      else if c = 't' then
        match cs with
        | 'r' :: 'u' :: 'e' :: r => some (.bool true, r)
        | _ => none
      else if c = 'f' then
        match cs with
        | 'a' :: 'l' :: 's' :: 'e' :: r => some (.bool false, r)
        | _ => none
      else if c = 'n' then
        match cs with
        | 'u' :: 'l' :: 'l' :: r => some (.null, r)
        | _ => none
      else if c = '-' then
        let (d, r) := digitSpan cs
        if intDigitsOk d && !floatFollows r then some (.num (-(digitsToNat d : Int)), r)
        else none
      else if c.isDigit then
        let (d, r) := digitSpan (c :: cs)
        if intDigitsOk d && !floatFollows r then some (.num (digitsToNat d : Int), r)
        else none
      else none

/-- Parse the members of a JSON object, positioned at the start of a key. -/
def parseMembers : Nat → List Char → List (List Char × Json) → Option (Json × List Char)
  | 0, _, _ => none
  | Nat.succ f, l, acc =>
    match l with
    | [] => none
    | c :: cs =>
      if c = qc then
        match parseStringBody cs with
        | some (k, r1) =>
          match skipWs r1 with
          | ':' :: r2 =>
            match parseValue f (skipWs r2) with
            | some (v, r3) =>
              match skipWs r3 with
              | [] => none
              | d :: r4 =>
                if d = ',' then parseMembers f (skipWs r4) (insertField acc k v)
                else if d = rbr then some (.obj (insertField acc k v), r4)
                else none
            | none => none
          | _ => none
        | none => none
      else none

/-- Parse the items of a JSON array, positioned at the start of a value. -/
def parseItems : Nat → List Char → List Json → Option (Json × List Char)
  | 0, _, _ => none
  | Nat.succ f, l, acc =>
    match parseValue f l with
    | some (v, r) =>
      match skipWs r with
      | [] => none
      | d :: r2 =>
        if d = ',' then parseItems f (skipWs r2) (acc ++ [v])
        else if d = ']' then some (.arr (acc ++ [v]), r2)
        else none
    | none => none

end

/-- Model of Python `json.loads` on the integer fragment of JSON:
skip leading whitespace, parse one value, allow only trailing whitespace.
Any failure (including floating-point literals, outside the modelled
fragment) is `none`, standing for `json.JSONDecodeError`. -/
def jsonLoads (s : List Char) : Option Json :=
  match parseValue (2 * s.length + 2) (skipWs s) with
  | some (v, rest) => if rest.all jsonWsB then some v else none
  | none => none

/-- Hex digit character for a value below 16. -/
def hexDigit (n : Nat) : Char :=
  if n < 10 then Char.ofNat (48 + n) else Char.ofNat (87 + n)

/-- Python `repr` escaping of one character inside a quoted string literal,
given the chosen quote character. -/
def pyReprEsc (quote c : Char) : List Char :=
  if c = bslash then [bslash, bslash]
  else if c = quote then [bslash, quote]
  else if c = '\n' then [bslash, 'n']
  else if c = '\r' then [bslash, 'r']
  else if c = '\t' then [bslash, 't']
  else if c.toNat < 32 || c.toNat = 127 then
    [bslash, 'x', hexDigit (c.toNat / 16), hexDigit (c.toNat % 16)]
  else [c]

/-- Python `repr` of a string: single-quoted, unless the string contains a
single quote and no double quote, in which case double-quoted. -/
def pyReprStr (s : List Char) : List Char :=
  let quote := if s.contains squo && !(s.contains qc) then qc else squo
  quote :: (s.foldr (fun c acc => pyReprEsc quote c ++ acc) [quote])

mutual

/-- Python `str`/`repr` of a parsed JSON value: `None`/`True`/`False`,
single-quoted strings, dicts rendered with quoted keys.  This is what
`str(raw_text)` produces when `clean_and_parse_json` is fed an
already-parsed result. -/
def pyRepr : Json → List Char
  | .null => 'N' :: 'o' :: 'n' :: 'e' :: []
  | .bool true => 'T' :: 'r' :: 'u' :: 'e' :: []
  | .bool false => 'F' :: 'a' :: 'l' :: 's' :: 'e' :: []
  | .num n => (toString n).toList
  | .str s => pyReprStr s
  | .arr items => '[' :: (pyReprItems items ++ [']'])
  | .obj fields => lbr :: (pyReprFields fields ++ [rbr])

/-- Comma-separated reprs of list items. -/
def pyReprItems : List Json → List Char
  | [] => []
  | [x] => pyRepr x
  | x :: y :: rest => pyRepr x ++ ',' :: ' ' :: pyReprItems (y :: rest)

/-- Comma-separated `key: value` reprs of dict fields. -/
def pyReprFields : List (List Char × Json) → List Char
  | [] => []
  | [(k, v)] => pyReprStr k ++ ':' :: ' ' :: pyRepr v
  | (k, v) :: g :: rest => pyReprStr k ++ ':' :: ' ' :: pyRepr v ++ ',' :: ' ' :: pyReprFields (g :: rest)

end

/-- Python truthiness of a parsed JSON value (`bool(x)`). -/
def jsonTruthy : Json → Bool
  | .null => false
  | .bool b => b
  | .num n => n ≠ 0
  | .str s => !s.isEmpty
  | .arr items => !items.isEmpty
  | .obj fields => !fields.isEmpty

/-- A Python value reaching `clean_and_parse_json`: `None`, a text string,
or an already-parsed JSON value (e.g. the result of a prior parse). -/
inductive PyVal where
  | none
  | str (s : List Char)
  | val (j : Json)
  deriving DecidableEq

/-- Python truthiness of a `PyVal` (`not raw_text`). -/
def pyTruthy : PyVal → Bool
  | .none => false
  | .str s => !s.isEmpty
  | .val j => jsonTruthy j

/-- Python `str()` of a `PyVal`. -/
def pyToText : PyVal → List Char
  | .none => 'N' :: 'o' :: 'n' :: 'e' :: []
  | .str s => s
  | .val j => pyRepr j

/-- The three-backtick delimiter. -/
def ticksTag : List Char := [btick, btick, btick]

/-- The opening fence of the regex pattern, three backticks and `json`. -/
def fenceOpenTag : List Char := [btick, btick, btick, 'j', 's', 'o', 'n']

/-- Characters before the first occurrence of the three-backtick delimiter. -/
def takeToTicks : List Char → List Char
  | [] => []
  | c :: cs => if startsWithL ticksTag (c :: cs) then [] else c :: takeToTicks cs

/-- Model of `re.search(r"```json\s*(.*?)\s*```", text, re.DOTALL)`:
the leftmost match of the pattern, whose group is the text between the
opening fence and the first following three-backtick delimiter, with
leading and trailing whitespace stripped (`\s*` greedy before the lazy
group, lazy group stops at the earliest closing position). -/
def fenceGroup : List Char → Option (List Char)
  | [] => none
  | c :: cs =>
    if startsWithL fenceOpenTag (c :: cs) then
      let tail := cs.drop 6
      if containsSub ticksTag tail then
        some (stripR (takeToTicks (tail.dropWhile pyWsB)))
      else fenceGroup cs
    else fenceGroup cs

/-- The fence-stripping step (lines 51-54): when the regex matches, the
text is replaced by the matched group, otherwise kept as is. -/
def stripFences (text : List Char) : List Char :=
  (fenceGroup text).getD text

/-- Model of `clean_and_parse_json` (src/streamlit_app.py lines 42-60):
falsy input gives `None`; otherwise stringify, replace the text by the
fenced group when the markdown-fence regex matches, and attempt a JSON
parse, with parse failure giving `None`. -/
def clean_and_parse_json (raw_text : PyVal) : Option Json :=
  if pyTruthy raw_text = false then none
  else jsonLoads (stripFences (pyToText raw_text))

/-- Feed a normalization result back into the normalizer, as a Python
caller would (`None` stays `None`, a dict is passed as an object). -/
def pyOfResult : Option Json → PyVal
  | Option.none => PyVal.none
  | Option.some j => PyVal.val j

/-- `normalize(normalize(x))`: the normalizer applied to its own output. -/
def reNormalize (x : PyVal) : Option Json :=
  clean_and_parse_json (pyOfResult (clean_and_parse_json x))

/-- Python exceptions that the stream loop body can raise; any of them is
caught by the outer `except` (line 189), which reports a stream error and
stops the script. -/
inductive PyErr where
  | nameError
  | attrError
  | typeError
  | indexError
  | keyError
  deriving DecidableEq

instance {ε α : Type} [DecidableEq ε] [DecidableEq α] : DecidableEq (Except ε α) :=
  fun a b =>
    match a, b with
    | .ok x, .ok y => if h : x = y then isTrue (by rw [h]) else isFalse (by simp [h])
    | .error e, .error f => if h : e = f then isTrue (by rw [h]) else isFalse (by simp [h])
    | .ok _, .error _ => isFalse (by simp)
    | .error _, .ok _ => isFalse (by simp)

/-- Look a key up in an object field list. -/
def lookupField : List (List Char × Json) → List Char → Option Json
  | [], _ => none
  | (k, v) :: fs, key => if k = key then some v else lookupField fs key

/-- Python `x.get(key, default)`: only dicts have `.get`, anything else
raises `AttributeError`. -/
def dictGet (j : Json) (key : List Char) (dflt : Json) : Except PyErr Json :=
  match j with
  | .obj fs => .ok ((lookupField fs key).getD dflt)
  | _ => .error .attrError

/-- Python `x[0]`: first element of a list (or 1-character string);
`IndexError` when empty, `KeyError` for a dict, `TypeError` otherwise. -/
def pyIndex0 (j : Json) : Except PyErr Json :=
  match j with
  | .arr (x :: _) => .ok x
  | .arr [] => .error .indexError
  | .str (c :: _) => .ok (.str [c])
  | .str [] => .error .indexError
  | .obj _ => .error .keyError
  | _ => .error .typeError

/-- Python `key in x`: key membership for dicts, substring test for
strings, element equality for lists, `TypeError` otherwise. -/
def pyContains (j : Json) (key : List Char) : Except PyErr Bool :=
  match j with
  | .obj fs => .ok (lookupField fs key).isSome
  | .str s => .ok (containsSub key s)
  | .arr items => .ok (items.contains (.str key))
  | _ => .error .typeError

/-- Python `x[key]` for a string key: dict lookup (`KeyError` when
missing), `TypeError` on anything else. -/
def pySubscript (j : Json) (key : List Char) : Except PyErr Json :=
  match j with
  | .obj fs =>
    match lookupField fs key with
    | some v => .ok v
    | none => .error .keyError
  | _ => .error .typeError

/-- A `status.write` progress notification from the step-details branch,
carrying the payload value inserted into the message. -/
inductive ProgressEvent where
  | plan (msg : Json)
  | searching (msg : Json)
  | thinking (msg : Json)
  deriving DecidableEq

/-- The mutable state of the streaming loop (lines 127-130):
`current_event_type` and `last_step_msg` trackers, the Python name
`delta` (unbound, modelled `none`, until the first completion-chunk frame
assigns it), the accumulated `full_json_buffer`, and the progress events
written so far. -/
structure LoopState where
  currentEventType : Option (List Char) := none
  delta : Option Json := none
  lastStepMsg : Json := .str []
  buffer : List Char := []
  events : List ProgressEvent := []
  deriving DecidableEq

/-- SSE tag `event:`. -/
def evTag : List Char := "event:".toList

/-- SSE tag `data:`. -/
def dataTag : List Char := "data:".toList

/-- The event type carrying content deltas. -/
def cccTag : List Char := "chat.completion.chunk".toList

/-- Process one already-stripped line of the stream loop body
(lines 134-184).  `Except.error` is an uncaught exception reaching the
outer handler. -/
def procLine (s : LoopState) (line : List Char) : Except PyErr LoopState :=
  if line.isEmpty then .ok s
  else if startsWithL evTag line then
    .ok { s with currentEventType := some (pyStrip (line.drop 6)) }
  else if startsWithL dataTag line then
    match jsonLoads (pyStrip (line.drop 5)) with
    | none => .ok s
    | some data =>
      if s.currentEventType = some cccTag then do
        let choices ← dictGet data ("choices".toList) (.arr [.obj []])
        let c0 ← pyIndex0 choices
        let delta ← dictGet c0 ("delta".toList) (.obj [])
        let s1 := { s with delta := some delta }
        let hasContent ← pyContains delta ("content".toList)
        if hasContent then do
          let content ← pySubscript delta ("content".toList)
          match content with
          | .str cs => .ok { s1 with buffer := s1.buffer ++ cs }
          | _ => .error .typeError
        else .ok s1
      else
        match s.delta with
        | none => .error .nameError
        | some delta => do
          let hasStep ← pyContains delta ("step_details".toList)
          if hasStep then do
            let step ← pySubscript delta ("step_details".toList)
            let stepType ← dictGet step ("type".toList) .null
            if stepType = .str ("research_plan".toList) then do
              let plan ← dictGet step ("step".toList) (.str ("Planning...".toList))
              .ok { s with events := s.events ++ [.plan plan] }
            else if stepType = .str ("research".toList) then do
              let msg ← dictGet step ("step".toList) (.str [])
              if msg ≠ s.lastStepMsg then
                .ok { s with events := s.events ++ [.searching msg], lastStepMsg := msg }
              else .ok s
            else if stepType = .str ("think".toList) then do
              let m ← dictGet step ("step".toList) (.str [])
              .ok { s with events := s.events ++ [.thinking m] }
            else .ok s
          else do
            let _ ← pyContains delta ("tool_calls".toList)
            .ok s
  else .ok s

/-- Process one raw chunk: the loop strips it and treats the result as one
logical line (line 134). -/
def procChunk (s : LoopState) (chunk : List Char) : Except PyErr LoopState :=
  procLine s (pyStrip chunk)

/-- Terminal outcome of one stream consumption: either the loop finished,
or an exception aborted it (`st.error` + `st.stop`), with the state as of
the last completed chunk. -/
inductive LoopOutcome where
  | completed (s : LoopState)
  | failed (s : LoopState) (e : PyErr)
  deriving DecidableEq

/-- Run the stream loop over a chunk sequence. -/
def runLoop : LoopState → List (List Char) → LoopOutcome
  | s, [] => .completed s
  | s, c :: cs =>
    match procChunk s c with
    | .ok s2 => runLoop s2 cs
    | .error e => .failed s e

/-- Run the stream loop from the initial state. -/
def runStream (chunks : List (List Char)) : LoopOutcome :=
  runLoop {} chunks

/-- A decoded protocol frame: an `event:` line setting the event type, or
a `data:` line whose JSON payload parsed. -/
inductive Frame where
  | event (t : List Char)
  | data (j : Json)
  deriving DecidableEq

/-- Frames produced from one already-stripped line, per the loop's line
classification: `event:` lines become event frames, `data:` lines with a
parseable payload become data frames, everything else yields nothing. -/
def frameOfLine (line : List Char) : List Frame :=
  if line.isEmpty then []
  else if startsWithL evTag line then [.event (pyStrip (line.drop 6))]
  else if startsWithL dataTag line then
    match jsonLoads (pyStrip (line.drop 5)) with
    | some j => [.data j]
    | none => []
  else []

/-- Frames produced from one raw chunk: the chunk is stripped and treated
as a single logical line. -/
def chunkFrames (chunk : List Char) : List Frame :=
  frameOfLine (pyStrip chunk)

/-- The frame sequence the loop extracts from a raw chunk sequence. -/
def decodeFrames (chunks : List (List Char)) : List Frame :=
  (chunks.map chunkFrames).flatten

/-- Key for the letter grade field. -/
def gradeKey : List Char := "letter_grade".toList

/-- Key for the red flags field. -/
def flagsKey : List Char := "red_flags".toList

/-- Key for the verified facts field. -/
def factsKey : List Char := "verified_facts".toList

/-- `final_data.get("letter_grade", "C")` (line 209): the grade rendered
in the metric card. -/
def displayGrade (fs : List (List Char × Json)) : Json :=
  (lookupField fs gradeKey).getD (.str ("C".toList))

/-- The color/label fallback of `grade_map.get(grade, ...)` (line 210). -/
def defaultStyle : List Char × List Char :=
  ("#95a5a6".toList, "Unknown".toList)

/-- Is the Python value of a parsed JSON node hashable?  Strings, ints,
bools and `None` are; lists and dicts are not. -/
def isHashable : Json → Bool
  | .arr _ => false
  | .obj _ => false
  | _ => true

/-- `grade_map.get(grade, ("#95a5a6", "Unknown"))` (lines 201-210):
`dict.get` first hashes its key, so an unhashable grade value (a list or
dict coming from the parsed JSON) raises `TypeError` — uncaught, since
the display section sits outside any try block; otherwise the lookup
returns the five letter entries or the default. -/
def gradeStyle (g : Json) : Except PyErr (List Char × List Char) :=
  if isHashable g = false then .error .typeError
  else if g = .str ("A".toList) then .ok ("#2ecc71".toList, "High Accuracy".toList)
  else if g = .str ("B".toList) then .ok ("#3498db".toList, "Mostly Accurate".toList)
  else if g = .str ("C".toList) then .ok ("#f1c40f".toList, "Mixed Accuracy".toList)
  else if g = .str ("D".toList) then .ok ("#e67e22".toList, "Questionable".toList)
  else if g = .str ("F".toList) then .ok ("#e74c3c".toList, "Misleading/False".toList)
  else .ok defaultStyle

/-- Is the grade one of the five letters keyed in `grade_map`? -/
def isValidGrade (g : Json) : Bool :=
  if g = .str ("A".toList) then true
  else if g = .str ("B".toList) then true
  else if g = .str ("C".toList) then true
  else if g = .str ("D".toList) then true
  else if g = .str ("F".toList) then true
  else false

/-- `final_data.get("red_flags", [])` (line 234). -/
def displayRedFlags (fs : List (List Char × Json)) : Json :=
  (lookupField fs flagsKey).getD (.arr [])

/-- `final_data.get("verified_facts", [])` (line 241). -/
def displayVerifiedFacts (fs : List (List Char × Json)) : Json :=
  (lookupField fs factsKey).getD (.arr [])

/-- Outcome of the submission prologue (lines 81-94): the input checks,
in program order, then construction of the API client with the cleaned
key.  Only `clientConstructed` goes on to any network call. -/
inductive SubmitOutcome where
  | missingCredential
  | missingInput
  | clientConstructed (key : List Char)
  deriving DecidableEq

/-- `clean_key`: strip then drop non-ASCII (lines 90-91). -/
def cleanKey (k : List Char) : List Char :=
  (pyStrip k).filter (fun c => c.toNat < 128)

/-- The submission prologue: `if not api_key` stops with the credential
error, `if not url_input` stops with the input error, otherwise the
`TavilyClient` is constructed (line 94) and the audit request is sent. -/
def submitAudit (apiKey urlInput : List Char) : SubmitOutcome :=
  if apiKey.isEmpty then .missingCredential
  else if urlInput.isEmpty then .missingInput
  else .clientConstructed (cleanKey apiKey)

/-- Does the submission outcome reach the client construction, and hence
the network? -/
def networkAttempted : SubmitOutcome → Bool
  | .clientConstructed _ => true
  | _ => false

/-- Status a poll of the job returns. -/
inductive PollStatus where
  | pending
  | completed (content : Json)
  | failed
  deriving DecidableEq

/-- Terminal outcome of the poll consumer. -/
inductive PollOutcome where
  | result (content : Json)
  | jobFailed
  | timedOut
  deriving DecidableEq

/-- Modelled from the spec: the repository source under src/ contains only
the streaming client; the Poll Consumer of spec section 4.4 (fixed
interval, bounded attempts) is absent from src/, so its attempt budget is
taken from the spec. -/
def pollAttempts : Nat := 60

/-- Modelled from the spec: the fixed wait, in time units, between polls. -/
def pollInterval : Nat := 5

/-- Modelled from the spec: one poll iteration step, tracking attempts
used and elapsed wait; `pending` retries until the fuel (remaining attempt
budget) runs out, `completed`/`failed` are terminal. -/
def pollLoop (server : Nat → PollStatus) : Nat → Nat → Nat → PollOutcome × Nat × Nat
  | used, elapsed, 0 => (.timedOut, used, elapsed)
  | used, elapsed, Nat.succ fuel =>
    match server used with
    | .pending => pollLoop server (used + 1) (elapsed + pollInterval) fuel
    | .completed c => (.result c, used + 1, elapsed + pollInterval)
    | .failed => (.jobFailed, used + 1, elapsed + pollInterval)

/-- Modelled from the spec: drive the polling protocol to completion
against a server, returning the outcome, the number of attempts made and
the total wait. -/
def pollUntilDone (server : Nat → PollStatus) : PollOutcome × Nat × Nat :=
  pollLoop server 0 0 pollAttempts


/-- Does the text avoid the backtick character entirely? -/
def noTickB : List Char → Bool
  | [] => true
  | c :: cs => (c != btick) && noTickB cs

/-- A complete `data:` line carrying a small JSON object. -/
def c1Line : List Char := "data: \x7b\"a\": 1\x7d".toList

/-- The first fragment of `c1Line` when split mid-payload. -/
def c1Frag1 : List Char := "data: \x7b\"a\"".toList

/-- The second fragment of `c1Line` when split mid-payload. -/
def c1Frag2 : List Char := ": 1\x7d".toList

/-- A one-chunk stream whose line carries a terminator. -/
def c1w1 : List (List Char) := ["data: \x7b\x7d\n".toList]

/-- The same logical line arriving with leading whitespace instead. -/
def c1w2 : List (List Char) := ["  data: \x7b\x7d".toList]

/-- A stream whose first data frame has an unrecognized event type. -/
def c2Chunks : List (List Char) := ["event: ping".toList, "data: \x7b\x7d".toList]

/-- A well-formed structured terminal payload (an AuditResult-shaped
object as accumulated text). -/
def c3Payload : PyVal := .str ("\x7b\"letter_grade\": \"A\"\x7d".toList)

/-- Surrounding prose before the fence, free of backticks. -/
def c4Pre : List Char := "Here is the audit. ".toList

/-- A valid JSON body, free of backticks and edge whitespace. -/
def c4Body : List Char := "\x7b\"letter_grade\": \"B\"\x7d".toList

/-- Surrounding prose after the fence. -/
def c4Post : List Char := " Thanks.".toList

/-- The parse of `c4Body`. -/
def c4Val : Json := .obj [("letter_grade".toList, .str ("B".toList))]

/-- A valid JSON body (a string literal) containing the backtick
delimiter sequence. -/
def c4BadBody : List Char := "\"x```y\"".toList

/-- A parsed result object whose letter grade is not one of A-F. -/
def c6Fields : List (List Char × Json) := [(gradeKey, .str ("Z".toList))]

/-- A parsed result object whose letter grade is a list (unhashable). -/
def c6BadFields : List (List Char × Json) := [(gradeKey, .arr [])]

/-- A stream consisting of one step-details frame. -/
def c9Chunks : List (List Char) :=
  ["event: research".toList,
   "data: \x7b\"step_details\": \x7b\"type\": \"research\", \"step\": \"q\"\x7d\x7d".toList]

/-- A server that reports `pending` on every poll. -/
def pendingServer : Nat → PollStatus := fun _ => .pending

theorem startsWithL_append_self (p l : List Char) : startsWithL p (p ++ l) = true := by
  induction p with
  | nil => rfl
  | cons c cs ih => simp [startsWithL, ih]

theorem startsWithL_eq_append (p l : List Char) (h : startsWithL p l = true) :
    ∃ t, l = p ++ t := by
  induction p generalizing l with
  | nil => exact ⟨l, rfl⟩
  | cons c cs ih =>
    cases l with
    | nil => simp [startsWithL] at h
    | cons d ds =>
      rw [startsWithL] at h
      by_cases hcd : c = d
      · rw [if_pos hcd] at h
        obtain ⟨t, ht⟩ := ih ds h
        exact ⟨t, by rw [ht, hcd]; rfl⟩
      · rw [if_neg hcd] at h
        exact absurd h (by simp)

theorem startsWithL_ticksTag_cons (c : Char) (l : List Char) (h : c ≠ btick) :
    startsWithL ticksTag (c :: l) = false := by
  show (if btick = c then startsWithL [btick, btick] l else false) = false
  rw [if_neg (fun hc => h hc.symm)]

theorem startsWithL_fenceTag_cons (c : Char) (l : List Char) (h : c ≠ btick) :
    startsWithL fenceOpenTag (c :: l) = false := by
  show (if btick = c then startsWithL [btick, btick, 'j', 's', 'o', 'n'] l else false) = false
  rw [if_neg (fun hc => h hc.symm)]

theorem containsSub_middle_ticks (l r : List Char) :
    containsSub ticksTag (l ++ (ticksTag ++ r)) = true := by
  induction l with
  | nil =>
    show (startsWithL ticksTag (ticksTag ++ r) || containsSub ticksTag (btick :: btick :: r)) = true
    rw [startsWithL_append_self]
    rfl
  | cons c cs ih =>
    rw [List.cons_append, containsSub, ih, Bool.or_true]

theorem takeToTicks_append (u r : List Char) (h : noTickB u = true) :
    takeToTicks (u ++ (ticksTag ++ r)) = u := by
  induction u with
  | nil =>
    show (if startsWithL ticksTag (ticksTag ++ r) = true then [] else btick :: takeToTicks (btick :: btick :: r)) = []
    rw [startsWithL_append_self, if_pos rfl]
  | cons c cs ih =>
    rw [noTickB, Bool.and_eq_true, bne_iff_ne] at h
    rw [List.cons_append, takeToTicks, startsWithL_ticksTag_cons _ _ h.1,
      if_neg (by simp), ih h.2]

theorem fenceGroup_skip (pre tail : List Char) (h : noTickB pre = true) :
    fenceGroup (pre ++ (fenceOpenTag ++ tail)) = fenceGroup (fenceOpenTag ++ tail) := by
  induction pre with
  | nil => rfl
  | cons c cs ih =>
    rw [noTickB, Bool.and_eq_true, bne_iff_ne] at h
    rw [List.cons_append, fenceGroup, startsWithL_fenceTag_cons _ _ h.1,
      if_neg (by simp), ih h.2]

theorem fenceGroup_none_of_noTick (l : List Char) (h : noTickB l = true) :
    fenceGroup l = none := by
  induction l with
  | nil => rfl
  | cons c cs ih =>
    rw [noTickB, Bool.and_eq_true, bne_iff_ne] at h
    rw [fenceGroup, startsWithL_fenceTag_cons _ _ h.1, if_neg (by simp), ih h.2]

theorem fenceGroup_at_fence (tail : List Char) (h : containsSub ticksTag tail = true) :
    fenceGroup (fenceOpenTag ++ tail) =
      some (stripR (takeToTicks (tail.dropWhile pyWsB))) := by
  show fenceGroup (btick :: (btick :: btick :: 'j' :: 's' :: 'o' :: 'n' :: tail)) = _
  rw [fenceGroup]
  have hs : startsWithL fenceOpenTag (btick :: (btick :: btick :: 'j' :: 's' :: 'o' :: 'n' :: tail)) = true :=
    startsWithL_append_self fenceOpenTag tail
  rw [hs]
  show (if containsSub ticksTag tail = true then
      some (stripR (takeToTicks (tail.dropWhile pyWsB))) else _) = _
  rw [if_pos h]

theorem dropWhile_length_le (p : Char → Bool) (l : List Char) :
    (l.dropWhile p).length ≤ l.length := by
  induction l with
  | nil => simp
  | cons c cs ih =>
    rw [List.dropWhile_cons]
    by_cases h : p c = true
    · rw [if_pos h]
      simp only [List.length_cons]
      omega
    · rw [if_neg h]

theorem dropWhile_stable_append (j X : List Char) (hne : j ≠ [])
    (hL : j.dropWhile pyWsB = j) : (j ++ X).dropWhile pyWsB = j ++ X := by
  cases j with
  | nil => exact absurd rfl hne
  | cons c t =>
    have hc : ¬ pyWsB c = true := by
      intro hcw
      rw [List.dropWhile_cons, if_pos hcw] at hL
      have h1 := congrArg List.length hL
      have h2 := dropWhile_length_le pyWsB t
      simp only [List.length_cons] at h1
      omega
    rw [List.cons_append, List.dropWhile_cons, if_neg hc]

theorem pollLoop_all_pending (server : Nat → PollStatus)
    (hs : ∀ n, server n = .pending) :
    ∀ fuel used elapsed, pollLoop server used elapsed fuel =
      (.timedOut, used + fuel, elapsed + fuel * pollInterval) := by
  intro fuel
  induction fuel with
  | zero => intro u e; simp [pollLoop]
  | succ f ih =>
    intro u e
    rw [pollLoop, hs u]
    rw [ih (u + 1) (e + pollInterval)]
    simp only [Prod.mk.injEq, pollInterval]
    exact ⟨trivial, by omega, by omega⟩

/-- C1 counterexample: splitting the logical line `data: {"a": 1}` at a
byte offset inside the JSON payload changes the decoded frame sequence:
the unsplit line yields one data frame, the two fragments yield none (the
first fragment's payload fails to parse and is dropped, the second has no
recognized tag), so the decoding loop is not chunk-boundary independent
and the split data line is lost rather than buffered. -/
theorem decode_frames_split_line_counterexample :
    c1Frag1 ++ c1Frag2 = c1Line ∧
    decodeFrames [c1Line] = [.data (.obj [("a".toList, .num 1)])] ∧
    decodeFrames [c1Frag1, c1Frag2] = [] ∧
    decodeFrames [c1Line] ≠ decodeFrames [c1Frag1, c1Frag2] := by decide

/-- C1 (amended): the loop treats each raw chunk as one logical line, so
the decoded frame sequence is invariant exactly under chunkings that agree
line-by-line after stripping: any two chunk sequences with equal stripped
lines decode to the same frames.  (A line split across two chunks is not
reassembled; see the counterexample.) -/
theorem decode_frames_strip_invariant (cs1 cs2 : List (List Char))
    (h : cs1.map pyStrip = cs2.map pyStrip) :
    decodeFrames cs1 = decodeFrames cs2 := by
  induction cs1 generalizing cs2 with
  | nil =>
    cases cs2 with
    | nil => rfl
    | cons b bs => simp at h
  | cons a as ih =>
    cases cs2 with
    | nil => simp at h
    | cons b bs =>
      simp only [List.map_cons, List.cons.injEq] at h
      show (chunkFrames a ++ decodeFrames as) = chunkFrames b ++ decodeFrames bs
      rw [chunkFrames, chunkFrames, h.1, ih bs h.2]

/-- C1 witness: two chunkings of the same stripped line decode equally. -/
theorem decode_frames_strip_invariant_witness :
    c1w1.map pyStrip = c1w2.map pyStrip ∧ decodeFrames c1w1 = decodeFrames c1w2 :=
  ⟨by decide, decode_frames_strip_invariant c1w1 c1w2 (by decide)⟩

/-- C2: a first data frame with an unrecognized event type does not leave
consumption unchanged: the classification branch evaluates
`"step_details" in delta` with the Python name `delta` still unbound,
raising `NameError`, which aborts the whole stream with no progress
events and an empty buffer. -/
theorem stream_first_unrecognized_frame_aborts :
    runStream c2Chunks =
      .failed { currentEventType := some ("ping".toList) } .nameError := by decide

/-- C3 counterexample: normalizing an AuditResult-shaped payload succeeds,
but normalizing that result again stringifies the dict via Python `repr`
(single-quoted), which is not valid JSON, so the second normalization
returns `None`: `normalize (normalize x) ≠ normalize x`. -/
theorem renormalize_not_idempotent_counterexample :
    clean_and_parse_json c3Payload = some (.obj [("letter_grade".toList, .str ("A".toList))]) ∧
    reNormalize c3Payload = none ∧
    reNormalize c3Payload ≠ clean_and_parse_json c3Payload := by decide

/-- C3 (amended): re-normalization is a no-op exactly on failing payloads:
whenever `normalize x` is `None`, `normalize (normalize x)` is also `None`
and hence equal; on successfully parsed object payloads idempotence fails
(see the counterexample). -/
theorem renormalize_of_parse_failure (x : PyVal) (h : clean_and_parse_json x = none) :
    reNormalize x = clean_and_parse_json x := by
  unfold reNormalize
  rw [h]
  rfl

/-- C3 witness: a non-JSON payload normalizes to `None`, stably. -/
theorem renormalize_of_parse_failure_witness :
    clean_and_parse_json (PyVal.str ("not json".toList)) = none ∧
    reNormalize (PyVal.str ("not json".toList)) = clean_and_parse_json (PyVal.str ("not json".toList)) :=
  ⟨by decide, renormalize_of_parse_failure (PyVal.str ("not json".toList)) (by decide)⟩

/-- C4 counterexample: a valid JSON body containing the three-backtick
delimiter normalizes bare, but wrapped in the fence the lazy group stops
at the delimiter inside the body, so the wrapped text normalizes to
`None` rather than to the bare body's result. -/
theorem fenced_backtick_body_counterexample :
    clean_and_parse_json (.str c4BadBody) = some (.str ("x```y".toList)) ∧
    clean_and_parse_json (.str (fenceOpenTag ++ (c4BadBody ++ ticksTag))) = none := by decide

/-- C4 (amended): for every valid JSON body free of backticks, given
without leading or trailing whitespace, and every surrounding prose whose
part before the fence is free of backticks, normalizing the body wrapped
in a ```json fence embedded in the prose equals normalizing the bare
body. -/
theorem clean_fenced_wrap_eq_bare (pre j post : List Char) (v : Json)
    (hpre : noTickB pre = true) (hj : noTickB j = true)
    (hL : j.dropWhile pyWsB = j) (hR : stripR j = j)
    (hv : jsonLoads j = some v) :
    clean_and_parse_json (.str (pre ++ (fenceOpenTag ++ (j ++ (ticksTag ++ post))))) = some v ∧
    clean_and_parse_json (.str j) = some v := by
  have hjne : j ≠ [] := by
    intro hnil
    have hempty : jsonLoads ([] : List Char) = none := by decide
    rw [hnil, hempty] at hv
    exact Option.noConfusion hv
  constructor
  · have hfg : fenceGroup (pre ++ (fenceOpenTag ++ (j ++ (ticksTag ++ post)))) = some j := by
      rw [fenceGroup_skip _ _ hpre, fenceGroup_at_fence _ (containsSub_middle_ticks j post),
        dropWhile_stable_append j _ hjne hL, takeToTicks_append _ _ hj, hR]
    have hwne : pre ++ (fenceOpenTag ++ (j ++ (ticksTag ++ post))) ≠ [] := by
      simp [fenceOpenTag]
    unfold clean_and_parse_json
    rw [if_neg (by simp [pyTruthy, hwne])]
    show jsonLoads (stripFences (pre ++ (fenceOpenTag ++ (j ++ (ticksTag ++ post))))) = some v
    rw [stripFences, hfg]
    exact hv
  · unfold clean_and_parse_json
    rw [if_neg (by simp [pyTruthy, hjne])]
    show jsonLoads (stripFences j) = some v
    rw [stripFences, fenceGroup_none_of_noTick _ hj]
    exact hv

/-- C4 witness: a concrete fenced letter-grade object embedded in prose
normalizes to the same result as the bare body. -/
theorem clean_fenced_wrap_eq_bare_witness :
    noTickB c4Pre = true ∧ noTickB c4Body = true ∧
    c4Body.dropWhile pyWsB = c4Body ∧ stripR c4Body = c4Body ∧
    jsonLoads c4Body = some c4Val ∧
    clean_and_parse_json (.str (c4Pre ++ (fenceOpenTag ++ (c4Body ++ (ticksTag ++ c4Post))))) = some c4Val ∧
    clean_and_parse_json (.str c4Body) = some c4Val := by
  refine ⟨by decide, by decide, by decide, by decide, by decide, ?_, ?_⟩
  · exact (clean_fenced_wrap_eq_bare c4Pre c4Body c4Post c4Val (by decide) (by decide)
      (by decide) (by decide) (by decide)).1
  · exact (clean_fenced_wrap_eq_bare c4Pre c4Body c4Post c4Val (by decide) (by decide)
      (by decide) (by decide) (by decide)).2

/-- C5: a `data:` line whose JSON payload fails to parse is dropped
silently: processing it returns the loop state completely unchanged (same
event type, same buffer, same events), and does not abort the stream. -/
theorem malformed_data_line_leaves_state (st : LoopState) (chunk : List Char)
    (h1 : startsWithL dataTag (pyStrip chunk) = true)
    (h2 : jsonLoads (pyStrip ((pyStrip chunk).drop 5)) = none) :
    procChunk st chunk = .ok st := by
  obtain ⟨t, ht⟩ := startsWithL_eq_append _ _ h1
  unfold procChunk procLine
  rw [ht] at h2 ⊢
  rw [show ((dataTag ++ t).isEmpty) = false from rfl, if_neg (by simp)]
  rw [show startsWithL evTag (dataTag ++ t) = false from rfl, if_neg (by simp)]
  rw [startsWithL_append_self dataTag t, if_pos rfl, h2]

/-- C5 witness: a malformed data line leaves the initial state intact. -/
theorem malformed_data_line_leaves_state_witness :
    startsWithL dataTag (pyStrip ("data: oops,".toList)) = true ∧
    jsonLoads (pyStrip ((pyStrip ("data: oops,".toList)).drop 5)) = none ∧
    procChunk {} ("data: oops,".toList) = .ok {} :=
  ⟨by decide, by decide,
   malformed_data_line_leaves_state {} ("data: oops,".toList) (by decide) (by decide)⟩

/-- C6 counterexample: the claim fails in two ways.  A parsed result
whose letter grade is `Z` is not normalized to a default grade: the
displayed grade stays `Z` (an invalid letter, in particular not the
default `C` used for a missing grade), only the color/label fall back to
the gray `Unknown` style.  And schema validation can hard-fail on a
parseable result: a letter grade that is a list is unhashable, so the
`grade_map.get` lookup raises an uncaught `TypeError`. -/
theorem invalid_grade_not_defaulted_counterexample :
    displayGrade c6Fields = .str ("Z".toList) ∧
    isValidGrade (displayGrade c6Fields) = false ∧
    displayGrade c6Fields ≠ .str ("C".toList) ∧
    gradeStyle (displayGrade c6Fields) = .ok defaultStyle ∧
    gradeStyle (displayGrade c6BadFields) = .error .typeError := by decide

/-- C6 (amended): on a parsed result object, a missing letter grade
defaults to `C`, and missing `red_flags` or `verified_facts` default to
the empty sequence; a hashable grade outside A-F keeps its value and only
its color/label fall back to the gray default; but display can hard-fail:
for an unhashable grade value (a list or dict) the `grade_map.get` lookup
raises an uncaught `TypeError`. -/
theorem display_defaulting (fs : List (List Char × Json)) (g : Json)
    (h1 : lookupField fs gradeKey = none)
    (h2 : lookupField fs flagsKey = none)
    (h3 : lookupField fs factsKey = none)
    (h4 : isValidGrade g = false) (h5 : isHashable g = true) :
    displayGrade fs = .str ("C".toList) ∧
    gradeStyle g = .ok defaultStyle ∧
    displayRedFlags fs = .arr [] ∧
    displayVerifiedFacts fs = .arr [] ∧
    (∀ g2 : Json, isHashable g2 = false → gradeStyle g2 = .error .typeError) := by
  refine ⟨?_, ?_, ?_, ?_, ?_⟩
  · rw [displayGrade, h1]; rfl
  · rw [isValidGrade] at h4
    split_ifs at h4 with hA hB hC hD hF
    rw [gradeStyle, h5, if_neg (by simp), if_neg hA, if_neg hB, if_neg hC,
      if_neg hD, if_neg hF]
  · rw [displayRedFlags, h2]; rfl
  · rw [displayVerifiedFacts, h3]; rfl
  · intro g2 hg2
    rw [gradeStyle, hg2, if_pos rfl]

/-- C6 witness: the empty result object and the invalid (but hashable)
grade `Z`; the unhashable-grade conjunct exercised on a list grade. -/
theorem display_defaulting_witness :
    lookupField [] gradeKey = none ∧ isValidGrade (.str ("Z".toList)) = false ∧
    isHashable (.str ("Z".toList)) = true ∧ isHashable (.arr []) = false ∧
    (displayGrade [] = .str ("C".toList) ∧
     gradeStyle (.str ("Z".toList)) = .ok defaultStyle ∧
     displayRedFlags [] = .arr [] ∧
     displayVerifiedFacts [] = .arr []) ∧
    gradeStyle (.arr []) = .error .typeError :=
  ⟨by decide, by decide, by decide, by decide,
   (fun h => ⟨h.1, h.2.1, h.2.2.1, h.2.2.2.1⟩)
     (display_defaulting [] (.str ("Z".toList)) (by decide) (by decide) (by decide)
       (by decide) (by decide)),
   (display_defaulting [] (.str ("Z".toList)) (by decide) (by decide) (by decide)
       (by decide) (by decide)).2.2.2.2 (.arr []) (by decide)⟩

/-- C7: against a server that always reports `pending`, the poll consumer
terminates after exactly the 60-attempt budget (300 time units of fixed
5-unit waits) and returns `TimedOut`; it never loops indefinitely. -/
theorem poll_all_pending_times_out (server : Nat → PollStatus)
    (hs : ∀ n, server n = .pending) :
    pollUntilDone server = (.timedOut, 60, 300) := by
  rw [pollUntilDone, pollAttempts, pollLoop_all_pending server hs 60 0 0]
  simp [pollInterval]

/-- C7 witness: the constantly-pending server times out at 60 attempts. -/
theorem poll_all_pending_times_out_witness :
    (∀ n, pendingServer n = PollStatus.pending) ∧
    pollUntilDone pendingServer = (.timedOut, 60, 300) :=
  ⟨fun _ => rfl, poll_all_pending_times_out pendingServer (fun _ => rfl)⟩

/-- C8: with an empty URL or an empty credential the submission stops at
the input checks with the corresponding error, before the API client is
constructed, so no network call is attempted. -/
theorem empty_inputs_block_network (apiKey urlInput : List Char)
    (h : urlInput = [] ∨ apiKey = []) :
    networkAttempted (submitAudit apiKey urlInput) = false ∧
    (submitAudit apiKey urlInput = .missingCredential ∨
     submitAudit apiKey urlInput = .missingInput) := by
  unfold submitAudit
  by_cases hk : apiKey.isEmpty = true
  · rw [if_pos hk]
    exact ⟨rfl, Or.inl rfl⟩
  · have hu : urlInput = [] := by
      rcases h with h | h
      · exact h
      · rw [h] at hk
        exact absurd rfl hk
    rw [if_neg hk, hu]
    exact ⟨rfl, Or.inr rfl⟩

/-- C8 witness: an empty URL with a nonempty key stops with MissingInput
and never reaches the client. -/
theorem empty_inputs_block_network_witness :
    (([] : List Char) = [] ∨ ("key".toList : List Char) = []) ∧
    networkAttempted (submitAudit ("key".toList) []) = false ∧
    (submitAudit ("key".toList) [] = .missingCredential ∨
     submitAudit ("key".toList) [] = .missingInput) :=
  ⟨Or.inl rfl,
   (empty_inputs_block_network ("key".toList) [] (Or.inl rfl)).1,
   (empty_inputs_block_network ("key".toList) [] (Or.inl rfl)).2⟩

/-- C9: a stream of step-detail frames does not produce Plan/Searching
progress events: the step-details branch reads the stale `delta` of the
last completion chunk, which is unbound before the first one, so the very
first step frame raises `NameError` and aborts the stream with no
Searching event emitted. -/
theorem step_frames_crash_no_searching :
    runStream c9Chunks =
      .failed { currentEventType := some ("research".toList) } .nameError := by decide

/-- C10: `clean_and_parse_json` is total on its interface: `None` and the
empty string map to `None`, a string whose (fence-stripped) text fails to
parse maps to `None`, and every input yields either a parsed value or
`None` (no exception escapes: the only parse failure is caught). -/
theorem clean_and_parse_json_total :
    clean_and_parse_json PyVal.none = none ∧
    clean_and_parse_json (.str []) = none ∧
    (∀ s : List Char, jsonLoads (stripFences s) = none → clean_and_parse_json (.str s) = none) ∧
    (∀ v : PyVal, clean_and_parse_json v = none ∨ ∃ j, clean_and_parse_json v = some j) := by
  refine ⟨rfl, rfl, ?_, ?_⟩
  · intro s h
    cases s with
    | nil => rfl
    | cons c cs =>
      unfold clean_and_parse_json
      rw [if_neg (by simp [pyTruthy])]
      exact h
  · intro v
    cases hq : clean_and_parse_json v with
    | none => exact Or.inl rfl
    | some j => exact Or.inr ⟨j, rfl⟩

/-- C10 witness: a non-JSON string maps to `None`. -/
theorem clean_and_parse_json_total_witness :
    jsonLoads (stripFences ("nope".toList)) = none ∧
    clean_and_parse_json (.str ("nope".toList)) = none :=
  ⟨by decide, clean_and_parse_json_total.2.2.1 ("nope".toList) (by decide)⟩
